import Mathlib

/-!
# A verification model of the Aerith interpreter

Shallow embedding of `src/static/interpreter.py`: the `Env` scope chain, the
AST node family with its `eval` operation, the line parser (`parse_line`,
`parse_expr`) and the runner (`run`) with its superuser mode.

Modelling conventions:
* Python strings are modelled as `List Char`; the host's `str.strip`,
  `str.split`, `str.upper`, `str.startswith` and `int(...)` are reimplemented
  below over char lists (ASCII-faithful; exotic Unicode behaviour of the host
  is out of scope).
* Python's in-place mutation of the environment chain is modelled by state
  threading: an evaluation returns its result together with the state as it
  stands when the evaluation finishes or raises, so mutations performed
  before an exception persist, exactly as with the host's mutable objects.
* Evaluation carries a fuel parameter (`Nat`); `Option.none` as an outer
  result means the fuel ran out (the source's `While` can loop forever and
  its function calls can recurse unboundedly, so no total semantics exists).
* Host exceptions are modelled by the `Err` type; an `Except.error` result
  is a raised exception propagating out of the corresponding Python call.
* The `Dict` node and the class machinery (`define_class` / `get_class`) are
  not modelled: the parser never produces them, nothing populates them, and
  no claim touches them.
-/

namespace Aerith

/-- Identifiers and modelled Python strings. -/
abbrev Name := List Char

/-- The whitespace characters stripped by Python's `str.strip()` /
`str.split()` (ASCII range). -/
def isSpaceChar (c : Char) : Bool :=
  c = ' ' || c = '\t' || c = '\n' || c = '\r' || c = '\x0b' || c = '\x0c'

/-- Python `str.strip()`. -/
def pyStrip (l : List Char) : List Char :=
  ((l.dropWhile isSpaceChar).reverse.dropWhile isSpaceChar).reverse

/-- Python `str.upper()` (ASCII). -/
def pyUpper (l : List Char) : List Char :=
  l.map Char.toUpper

/-- Helper for `pySplitWs`: accumulates the current token (reversed). -/
def pySplitWsAux : List Char → List Char → List (List Char)
  | [], acc => if acc = [] then [] else [acc.reverse]
  | c :: rest, acc =>
    if isSpaceChar c then
      if acc = [] then pySplitWsAux rest [] else acc.reverse :: pySplitWsAux rest []
    else pySplitWsAux rest (c :: acc)

/-- Python `str.split()` with no argument: split on whitespace runs,
discarding empty tokens. -/
def pySplitWs (l : List Char) : List (List Char) :=
  pySplitWsAux l []

/-- Python `str.split(sep, 1)` restricted to what the source needs: split at
the first occurrence of `sep`, `none` when `sep` does not occur (in which
case the source's 2-tuple unpacking raises `ValueError`). -/
def pySplitOnce (sep : Char) : List Char → Option (List Char × List Char)
  | [] => Option.none
  | c :: rest =>
    if c = sep then some ([], rest)
    else
      match pySplitOnce sep rest with
      | Option.none => Option.none
      | some (a, b) => some (c :: a, b)

/-- Python `str.split(sep)`: always yields at least one piece (`""` splits to
`[""]`). -/
def pySplitAll (sep : Char) : List Char → List (List Char)
  | [] => [[]]
  | c :: rest =>
    let r := pySplitAll sep rest
    if c = sep then [] :: r
    else
      match r with
      | [] => [[c]]
      | p :: ps => (c :: p) :: ps

/-- Numeric value of an ASCII digit. -/
def digitVal (c : Char) : Nat := c.toNat - 48

/-- Digit-run scanner for `pyParseInt`: digits with single underscores
allowed between digits (Python 3 `int` literal grouping). -/
def digitsCore : Nat → List Char → Option Nat
  | acc, [] => some acc
  | acc, c :: rest =>
    if c.isDigit then digitsCore (acc * 10 + digitVal c) rest
    else if c = '_' then
      match rest with
      | d :: rest2 => if d.isDigit then digitsCore (acc * 10 + digitVal d) rest2 else Option.none
      | [] => Option.none
    else Option.none

/-- Unsigned part of `pyParseInt`: requires a leading ASCII digit. -/
def pyParseNat : List Char → Option Nat
  | [] => Option.none
  | c :: rest => if c.isDigit then digitsCore 0 (c :: rest) else Option.none

/-- Python `int(s)` on an already-stripped token: optional sign, then ASCII
digits with optional single underscores between digits; `none` models the
`ValueError` raise. (Non-ASCII digit forms accepted by the host are out of
scope.) -/
def pyParseInt (l : List Char) : Option Int :=
  match l with
  | '+' :: rest => (pyParseNat rest).map (fun n => (n : Int))
  | '-' :: rest => (pyParseNat rest).map (fun n => -(n : Int))
  | _ => (pyParseNat l).map (fun n => (n : Int))

/-- Runtime values of the interpreter (the host values its nodes evaluate
to). Host floats — which arise only from the `/` operator — are modelled as
exact rationals; this agrees with the host whenever the quotient is exactly
representable, and no claim exercises `/`. -/
inductive Value where
  | int (n : Int)
  | float (q : Rat)
  | str (s : List Char)
  | bool (b : Bool)
  | none
  | list (elems : List Value)

/-- Python truthiness (`bool(v)`), as used by `and`/`or`, `If` and `While`:
`False`, `0`, `0.0`, `""`, `[]` and `None` are falsy, everything else
truthy. -/
def truthy : Value → Bool
  | .bool b => b
  | .int n => decide (n ≠ 0)
  | .float q => decide (q ≠ 0)
  | .str s => !s.isEmpty
  | .list xs => !xs.isEmpty
  | .none => false

/-- Python's numeric tower restricted to exact values: `bool` is an `int`
(`True == 1`), used by arithmetic and comparisons. -/
def intOf : Value → Option Int
  | .int n => some n
  | .bool b => some (if b then 1 else 0)
  | _ => Option.none

/-- Numeric view including floats (for the mixed float branches). -/
def ratOf : Value → Option Rat
  | .int n => some (n : Rat)
  | .bool b => some (if b then 1 else 0)
  | .float q => some q
  | _ => Option.none

/-- Is the value a host float? -/
def isFloat : Value → Bool
  | .float _ => true
  | _ => false

mutual

/-- Python `==` (`l == r`): numeric values compare through the numeric tower,
other values structurally per type, cross-type comparisons are `False` and
never raise. (Numeric-tower coercion *inside* containers is not modelled;
no claim compares containers.) -/
def pyEq : Value → Value → Bool
  | .str a, .str b => a = b
  | .none, .none => true
  | .list a, .list b => pyEqList a b
  | l, r =>
    match ratOf l, ratOf r with
    | some a, some b => a = b
    | _, _ => false

/-- Elementwise `==` on host lists. -/
def pyEqList : List Value → List Value → Bool
  | [], [] => true
  | a :: xs, b :: ys => pyEq a b && pyEqList xs ys
  | _, _ => false

end

/-- The closed operator set of `BinOp.eval`. Being closed, the source's
defensive `Unknown operator` raise is unreachable in the model. -/
inductive Op where
  | add | sub | mul | div | mod
  | eq | ne | gt | lt | ge | le
  | and | or
deriving DecidableEq, Repr

/-- Lexicographic `<` on host strings (code-point order, as in Python). -/
def strLt : List Char → List Char → Bool
  | [], [] => false
  | [], _ :: _ => true
  | _ :: _, [] => false
  | a :: xs, b :: ys => if a < b then true else if a = b then strLt xs ys else false

/-- Errors of the modelled host: each constructor is one exception kind the
source can raise. `undefinedVariable` / `undefinedFunction` are the
`NameError` raises of `Env.get` / `Env.set` / `Env.get_func`;
`letUnpackError` is the `ValueError` from 2-tuple unpacking in `parse_line`;
`malformedSuperuserCommand` is the `ValueError` from `set_var` handling in
`run` (wrong token count, or a non-integer value token). -/
inductive Err where
  | undefinedVariable (name : Name)
  | undefinedFunction (name : Name)
  | typeMismatch
  | zeroDivision
  | letUnpackError
  | malformedSuperuserCommand
deriving DecidableEq, Repr

/-- Integer-exact modulo with the divisor's sign (Python `%`). -/
def ratMod (a b : Rat) : Rat := a - b * (⌊a / b⌋ : Int)

/-- String/list repetition counts (`"ab" * 3`): Python accepts ints and
bools here. -/
def repCount : Value → Option Int
  | .int n => some n
  | .bool b => some (if b then 1 else 0)
  | _ => Option.none

/-- `BinOp.eval`'s operator application, after both operands are evaluated.
Mirrors the host operator semantics on the modelled value set; incompatible
operand types raise (Python `TypeError`, the spec's `TypeMismatch`).
Sequence-vs-sequence ordering comparisons (host supported) are out of the
modelled scope and conservatively mapped to `typeMismatch`; no claim
compares containers. -/
def applyOp : Op → Value → Value → Except Err Value
  | .add, l, r =>
    match intOf l, intOf r with
    | some a, some b => .ok (.int (a + b))
    | _, _ =>
      match ratOf l, ratOf r with
      | some a, some b => .ok (.float (a + b))
      | _, _ =>
        match l, r with
        | .str a, .str b => .ok (.str (a ++ b))
        | .list a, .list b => .ok (.list (a ++ b))
        | _, _ => .error .typeMismatch
  | .sub, l, r =>
    match intOf l, intOf r with
    | some a, some b => .ok (.int (a - b))
    | _, _ =>
      match ratOf l, ratOf r with
      | some a, some b => .ok (.float (a - b))
      | _, _ => .error .typeMismatch
  | .mul, l, r =>
    match intOf l, intOf r with
    | some a, some b => .ok (.int (a * b))
    | _, _ =>
      match ratOf l, ratOf r with
      | some a, some b => .ok (.float (a * b))
      | _, _ =>
        match l, r with
        | .str s, _ =>
          match repCount r with
          | some n => .ok (.str (List.flatten (List.replicate n.toNat s)))
          | Option.none => .error .typeMismatch
        | _, .str s =>
          match repCount l with
          | some n => .ok (.str (List.flatten (List.replicate n.toNat s)))
          | Option.none => .error .typeMismatch
        | .list s, _ =>
          match repCount r with
          | some n => .ok (.list (List.flatten (List.replicate n.toNat s)))
          | Option.none => .error .typeMismatch
        | _, .list s =>
          match repCount l with
          | some n => .ok (.list (List.flatten (List.replicate n.toNat s)))
          | Option.none => .error .typeMismatch
        | _, _ => .error .typeMismatch
  | .div, l, r =>
    match ratOf l, ratOf r with
    | some a, some b => if b = 0 then .error .zeroDivision else .ok (.float (a / b))
    | _, _ => .error .typeMismatch
  | .mod, l, r =>
    match intOf l, intOf r with
    | some a, some b => if b = 0 then .error .zeroDivision else .ok (.int (Int.fmod a b))
    | _, _ =>
      match ratOf l, ratOf r with
      | some a, some b => if b = 0 then .error .zeroDivision else .ok (.float (ratMod a b))
      | _, _ => .error .typeMismatch
  | .eq, l, r => .ok (.bool (pyEq l r))
  | .ne, l, r => .ok (.bool (!pyEq l r))
  | .gt, l, r =>
    match intOf l, intOf r with
    | some a, some b => .ok (.bool (decide (b < a)))
    | _, _ =>
      match ratOf l, ratOf r with
      | some a, some b => .ok (.bool (decide (b < a)))
      | _, _ =>
        match l, r with
        | .str a, .str b => .ok (.bool (strLt b a))
        | _, _ => .error .typeMismatch
  | .lt, l, r =>
    match intOf l, intOf r with
    | some a, some b => .ok (.bool (decide (a < b)))
    | _, _ =>
      match ratOf l, ratOf r with
      | some a, some b => .ok (.bool (decide (a < b)))
      | _, _ =>
        match l, r with
        | .str a, .str b => .ok (.bool (strLt a b))
        | _, _ => .error .typeMismatch
  | .ge, l, r =>
    match intOf l, intOf r with
    | some a, some b => .ok (.bool (decide (b ≤ a)))
    | _, _ =>
      match ratOf l, ratOf r with
      | some a, some b => .ok (.bool (decide (b ≤ a)))
      | _, _ =>
        match l, r with
        | .str a, .str b => .ok (.bool (!strLt a b))
        | _, _ => .error .typeMismatch
  | .le, l, r =>
    match intOf l, intOf r with
    | some a, some b => .ok (.bool (decide (a ≤ b)))
    | _, _ =>
      match ratOf l, ratOf r with
      | some a, some b => .ok (.bool (decide (a ≤ b)))
      | _, _ =>
        match l, r with
        | .str a, .str b => .ok (.bool (!strLt b a))
        | _, _ => .error .typeMismatch
  | .and, l, r => .ok (if truthy l then r else l)
  | .or, l, r => .ok (if truthy l then l else r)

/-- The AST node family of the source (`Number`, `String`, `Boolean`,
`NoneNode`, `Array`, `Var`, `BinOp`, `Let`, `Assign`, `Print`, `FuncDef`,
`FuncCall`, `If`, `While`). `Dict` is omitted (see the header). -/
inductive Node where
  | number (value : Int)
  | strLit (value : List Char)
  | boolean (value : Bool)
  | noneLit
  | array (elements : List Node)
  | var (name : Name)
  | binOp (left : Node) (op : Op) (right : Node)
  | letN (name : Name) (expr : Node)
  | assign (name : Name) (expr : Node)
  | print (expr : Node)
  | funcDef (name : Name) (args : List Name) (body : List Node)
  | funcCall (name : Name) (args : List Node)
  | ifN (cond : Node) (trueBody : List Node) (falseBody : List Node)
  | whileN (cond : Node) (body : List Node)

/-- First-match lookup in a Python-dict-as-association-list. -/
def lookupA {α : Type} : List (Name × α) → Name → Option α
  | [], _ => Option.none
  | (y, w) :: rest, x => if y = x then some w else lookupA rest x

/-- Python `d[k] = v`: overwrite in place when the key exists (a host dict
keeps the key's original position), append otherwise. -/
def insertA {α : Type} : List (Name × α) → Name → α → List (Name × α)
  | [], x, v => [(x, v)]
  | (y, w) :: rest, x, v => if y = x then (x, v) :: rest else (y, w) :: insertA rest x v

/-- One scope of the chain: the `vars` and `funcs` dicts of a Python `Env`
object (`classes` is omitted, see the header). -/
structure Frame where
  vars : List (Name × Value)
  funcs : List (Name × (List Name × List Node))

/-- The empty scope a fresh `Env()` starts with. -/
def Frame.empty : Frame := ⟨[], []⟩

/-- `{fr with vars := fr.vars[x] = v}`. -/
def Frame.declareVar (fr : Frame) (x : Name) (v : Value) : Frame :=
  { fr with vars := insertA fr.vars x v }

/-- An environment chain, local scope first: `f :: p` is an `Env` whose
`vars`/`funcs` are `f`'s and whose parent chain is `p`; `[]` is the absent
parent of the root. -/
abbrev Env := List Frame

/-- `Env.get`: local scope first, then the parent chain; `NameError` at the
root. -/
def Env.get : Env → Name → Except Err Value
  | [], x => .error (.undefinedVariable x)
  | f :: p, x =>
    match lookupA f.vars x with
    | some v => .ok v
    | Option.none => Env.get p x

/-- `Env.set`: mutate the nearest scope already containing the name;
`NameError` when no scope does (never auto-creates). -/
def Env.set : Env → Name → Value → Except Err Env
  | [], x, _ => .error (.undefinedVariable x)
  | f :: p, x, v =>
    match lookupA f.vars x with
    | some _ => .ok (f.declareVar x v :: p)
    | Option.none =>
      match Env.set p x v with
      | .ok p2 => .ok (f :: p2)
      | .error e => .error e

/-- `Env.declare`: always writes the local scope only. (The empty chain does
not arise: every `Env` object has a local scope.) -/
def Env.declare : Env → Name → Value → Env
  | [], _, _ => []
  | f :: p, x, v => f.declareVar x v :: p

/-- `Env.define_func`: registers `(params, body)` in the local scope. -/
def Env.defineFunc : Env → Name → List Name → List Node → Env
  | [], _, _, _ => []
  | f :: p, x, ps, body => { f with funcs := insertA f.funcs x (ps, body) } :: p

/-- `Env.get_func`: chained lookup; `NameError` at the root. -/
def Env.getFunc : Env → Name → Except Err (List Name × List Node)
  | [], x => .error (.undefinedFunction x)
  | f :: p, x =>
    match lookupA f.funcs x with
    | some d => .ok d
    | Option.none => Env.getFunc p x

/-- One line written to stdout. Output is modelled as structured events, one
per printed line, rather than formatted text. -/
inductive OutEvent where
  | print (v : Value)
  | superuserActivated
  | revealVars (vars : List (Name × Value))
  | setVar (name : Name) (value : Int)

/-- The mutable state an evaluation sees: the environment chain passed to
`eval`, plus stdout. (The `superuser` flag lives on the runner's state
`RState`; no `eval` method of the source ever reads or writes it.) -/
structure St where
  frames : Env
  out : List OutEvent

/-- Evaluation result: `none` when the fuel ran out, otherwise the value or
raised error together with the state at that point. -/
abbrev Res (α : Type) := Option (Except Err α × St)

/-- Evaluate statements in order (a `for stmt in body` loop), returning the
value of the last statement — `Value.none` for an empty body, matching the
source's `ret = None` initialisation in `FuncCall.eval`. -/
def evalSeqWith (ev : Node → St → Res Value) : List Node → St → Res Value
  | [], st => some (.ok Value.none, st)
  | s :: rest, st =>
    match ev s st with
    | Option.none => Option.none
    | some (.error e, st1) => some (.error e, st1)
    | some (.ok v, st1) =>
      match rest with
      | [] => some (.ok v, st1)
      | _ :: _ => evalSeqWith ev rest st1

/-- Evaluate expressions left to right, collecting their values (`Array`
elements; also the argument values of a call, in the caller's scope). -/
def evalElemsWith (ev : Node → St → Res Value) : List Node → St → Res (List Value)
  | [], st => some (.ok [], st)
  | e :: rest, st =>
    match ev e st with
    | Option.none => Option.none
    | some (.error er, st1) => some (.error er, st1)
    | some (.ok v, st1) =>
      match evalElemsWith ev rest st1 with
      | Option.none => Option.none
      | some (.error er, st2) => some (.error er, st2)
      | some (.ok vs, st2) => some (.ok (v :: vs), st2)

/-- The parameter-binding loop of `FuncCall.eval`:
`for n, a in zip(func_args, self.args): local_env.declare(n, a.eval(env))` —
each zipped argument is evaluated in the caller's state, its value declared
into the accumulating callee frame. -/
def evalBindsWith (ev : Node → St → Res Value) :
    List (Name × Node) → St → Frame → Res Frame
  | [], st, fr => some (.ok fr, st)
  | (x, a) :: rest, st, fr =>
    match ev a st with
    | Option.none => Option.none
    | some (.error e, st1) => some (.error e, st1)
    | some (.ok v, st1) => evalBindsWith ev rest st1 (fr.declareVar x v)

/-- `Node.eval(env)`. Fuel decreases on every node, so the recursion is
structural; `none` means the fuel bound was hit (only unbounded `While`
loops and call recursion need unbounded fuel).

On an unresolved `FuncCall` name the source attempts
`importlib.import_module(name)` — arbitrary host-module loading with no
in-model meaning. Per spec §9 that fallback is replaced by the plain
`UndefinedFunction` error here; no claim depends on that branch. -/
def evalNode : Nat → Node → St → Res Value
  | 0, _, _ => Option.none
  | fuel + 1, node, st =>
    match node with
    | .number n => some (.ok (.int n), st)
    | .strLit s => some (.ok (.str s), st)
    | .boolean b => some (.ok (.bool b), st)
    | .noneLit => some (.ok Value.none, st)
    | .array es =>
      match evalElemsWith (evalNode fuel) es st with
      | Option.none => Option.none
      | some (.error e, st1) => some (.error e, st1)
      | some (.ok vs, st1) => some (.ok (.list vs), st1)
    | .var x =>
      match Env.get st.frames x with
      | .ok v => some (.ok v, st)
      | .error e => some (.error e, st)
    | .binOp l op r =>
      match evalNode fuel l st with
      | Option.none => Option.none
      | some (.error e, st1) => some (.error e, st1)
      | some (.ok lv, st1) =>
        match evalNode fuel r st1 with
        | Option.none => Option.none
        | some (.error e, st2) => some (.error e, st2)
        | some (.ok rv, st2) =>
          match applyOp op lv rv with
          | .ok v => some (.ok v, st2)
          | .error e => some (.error e, st2)
    | .letN x e =>
      match evalNode fuel e st with
      | Option.none => Option.none
      | some (.error er, st1) => some (.error er, st1)
      | some (.ok v, st1) => some (.ok Value.none, { st1 with frames := Env.declare st1.frames x v })
    | .assign x e =>
      match evalNode fuel e st with
      | Option.none => Option.none
      | some (.error er, st1) => some (.error er, st1)
      | some (.ok v, st1) =>
        match Env.set st1.frames x v with
        | .error er => some (.error er, st1)
        | .ok fs => some (.ok Value.none, { st1 with frames := fs })
    | .print e =>
      match evalNode fuel e st with
      | Option.none => Option.none
      | some (.error er, st1) => some (.error er, st1)
      | some (.ok v, st1) => some (.ok Value.none, { st1 with out := st1.out ++ [.print v] })
    | .funcDef f ps body => some (.ok Value.none, { st with frames := Env.defineFunc st.frames f ps body })
    | .funcCall f args =>
      match Env.getFunc st.frames f with
      | .error e => some (.error e, st)
      | .ok (ps, body) =>
        match evalBindsWith (evalNode fuel) (ps.zip args) st Frame.empty with
        | Option.none => Option.none
        | some (.error e, st1) => some (.error e, st1)
        | some (.ok fr, st1) =>
          match evalSeqWith (evalNode fuel) body { st1 with frames := fr :: st1.frames } with
          | Option.none => Option.none
          | some (res, st2) => some (res, { st2 with frames := st2.frames.tail })
    | .ifN c tb fb =>
      match evalNode fuel c st with
      | Option.none => Option.none
      | some (.error e, st1) => some (.error e, st1)
      | some (.ok v, st1) =>
        if truthy v then
          match evalSeqWith (evalNode fuel) tb st1 with
          | Option.none => Option.none
          | some (.error e, st2) => some (.error e, st2)
          | some (.ok _, st2) => some (.ok Value.none, st2)
        else
          match evalSeqWith (evalNode fuel) fb st1 with
          | Option.none => Option.none
          | some (.error e, st2) => some (.error e, st2)
          | some (.ok _, st2) => some (.ok Value.none, st2)
    | .whileN c b =>
      match evalNode fuel c st with
      | Option.none => Option.none
      | some (.error e, st1) => some (.error e, st1)
      | some (.ok v, st1) =>
        if truthy v then
          match evalSeqWith (evalNode fuel) b st1 with
          | Option.none => Option.none
          | some (.error e, st2) => some (.error e, st2)
          | some (.ok _, st2) => evalNode fuel (.whileN c b) st2
        else some (.ok Value.none, st1)

/-- `parse_expr`, with an explicit recursion bound (each recursive call is on
a strict substring of a bracketed literal, so `length + 1` from the wrapper
`parse_expr` can never run out; the fallback at 0 is unreachable). -/
def parseExprF : Nat → List Char → Node
  | 0, e0 => .var (pyStrip e0)
  | fuel + 1, e0 =>
    let e := pyStrip e0
    if e = "true".data then .boolean true
    else if e = "false".data then .boolean false
    else if e = "none".data then .noneLit
    else if List.isPrefixOf ['"'] e && List.isSuffixOf ['"'] e then
      .strLit ((e.drop 1).dropLast)
    else if List.isPrefixOf ['['] e && List.isSuffixOf [']'] e then
      let inner := (e.drop 1).dropLast
      .array ((pySplitAll ',' inner).filterMap (fun x =>
        let s := pyStrip x
        if s = [] then Option.none else some (parseExprF fuel s)))
    else
      match pyParseInt e with
      | some n => .number n
      | Option.none => .var e

/-- `parse_expr(expr)`: literal keywords, double-quoted strings (no escape
processing), naive comma-split bracketed lists, integer literals, falling
back to a variable reference. Total. -/
def parse_expr (e : List Char) : Node :=
  parseExprF (e.length + 1) e

/-- `parse_line(line)`: recognizes `let <name> = <expr>` and
`shout <expr>`; any other line yields no node. An `Except.error` result is
the `ValueError` the source raises when a `let ` line has no `=` (the
2-tuple unpacking of `split('=', 1)` fails). -/
def parse_line (line : List Char) : Except Err (Option Node) :=
  let l := pyStrip line
  if List.isPrefixOf "let ".data l then
    match pySplitOnce '=' (l.drop 4) with
    | some (name, ex) => .ok (some (.letN (pyStrip name) (parse_expr (pyStrip ex))))
    | Option.none => .error .letUnpackError
  else if List.isPrefixOf "shout ".data l then
    .ok (some (.print (parse_expr (l.drop 6))))
  else .ok Option.none

/-- The magic token of `run` (uppercase form it is compared against). -/
def magicToken : List Char := "SUDO%20INIT%20SUPERUSERMODE".data

/-- The state owned by a session: the environment object handed to `run`
(its chain and its `superuser` flag) plus stdout. `run` returns it so the
REPL can feed it back in. -/
structure RState where
  frames : Env
  superuser : Bool
  out : List OutEvent

/-- One iteration of `run`'s line loop: the magic-token check, then
parse + evaluate, then — when superuser mode is on — the `reveal_vars` /
`set_var` commands. Result: `none` when evaluation fuel ran out, otherwise
the optionally raised error and the session state at that point. -/
def stepLine (fuel : Nat) (line : List Char) (rs : RState) : Option (Option Err × RState) :=
  let ls := pyStrip line
  if pyUpper ls = magicToken then
    some (Option.none, ⟨rs.frames, true, rs.out ++ [.superuserActivated]⟩)
  else
    match parse_line line with
    | .error e => some (some e, rs)
    | .ok nodeOpt =>
      match
        (match nodeOpt with
         | Option.none => some (Except.ok Value.none, (⟨rs.frames, rs.out⟩ : St))
         | some node => evalNode fuel node ⟨rs.frames, rs.out⟩) with
      | Option.none => Option.none
      | some (.error e, st1) => some (some e, ⟨st1.frames, rs.superuser, st1.out⟩)
      | some (.ok _, st1) =>
        let rs1 : RState := ⟨st1.frames, rs.superuser, st1.out⟩
        if rs1.superuser then
          if List.isPrefixOf "reveal_vars".data ls then
            some (Option.none, ⟨rs1.frames, rs1.superuser,
              rs1.out ++ [.revealVars (match rs1.frames with | [] => [] | f :: _ => f.vars)]⟩)
          else if List.isPrefixOf "set_var".data ls then
            match pySplitWs ls with
            | [_, varName, valTok] =>
              match pyParseInt valTok with
              | Option.none => some (some .malformedSuperuserCommand, rs1)
              | some n =>
                match Env.set rs1.frames varName (.int n) with
                | .error e => some (some e, rs1)
                | .ok fs => some (Option.none, ⟨fs, rs1.superuser, rs1.out ++ [.setVar varName n]⟩)
            | _ => some (some .malformedSuperuserCommand, rs1)
          else some (Option.none, rs1)
        else some (Option.none, rs1)

/-- `run(source, env)` over the already-split lines of the source: process
lines in order; a raised error propagates out of `run` immediately (the
remaining lines of this call are not reached), with the session state as
mutated so far — the caller keeps the environment object either way. -/
def run (fuel : Nat) : List (List Char) → RState → Option (Option Err × RState)
  | [], rs => some (Option.none, rs)
  | line :: rest, rs =>
    match stepLine fuel line rs with
    | Option.none => Option.none
    | some (some e, rs2) => some (some e, rs2)
    | some (Option.none, rs2) => run fuel rest rs2

/-! ## Helper lemmas -/

theorem lookupA_insertA_self {α : Type} (l : List (Name × α)) (x : Name) (v : α) :
    lookupA (insertA l x v) x = some v := by
  induction l with
  | nil => simp [insertA, lookupA]
  | cons hd tl ih =>
    obtain ⟨y, w⟩ := hd
    by_cases h : y = x
    · subst h
      simp [insertA, lookupA]
    · simp [insertA, lookupA, h, ih]

theorem lookupA_insertA_other {α : Type} (l : List (Name × α)) (x y : Name) (v : α)
    (h : y ≠ x) : lookupA (insertA l x v) y = lookupA l y := by
  induction l with
  | nil => simp [insertA, lookupA, Ne.symm h]
  | cons hd tl ih =>
    obtain ⟨z, w⟩ := hd
    by_cases hz : z = x
    · subst hz
      simp [insertA, lookupA, Ne.symm h]
    · simp only [insertA, if_neg hz, lookupA]
      by_cases hzy : z = y <;> simp [hzy, ih]

theorem zip_map_snd {α β : Type} (l1 : List α) (l2 : List β) :
    (l1.zip l2).map Prod.snd = l2.take l1.length := by
  induction l1 generalizing l2 with
  | nil => simp
  | cons a tl ih =>
    cases l2 with
    | nil => simp
    | cons b tl2 => simp [ih]

theorem zip_map_fst {α β : Type} (l1 : List α) (l2 : List β) :
    (l1.zip l2).map Prod.fst = l1.take l2.length := by
  induction l1 generalizing l2 with
  | nil => simp
  | cons a tl ih =>
    cases l2 with
    | nil => simp
    | cons b tl2 => simp [ih]

theorem take_zip_of_le {α β : Type} (l1 : List α) (n : Nat) (l2 : List β)
    (h : l2.length ≤ n) : (l1.take n).zip l2 = l1.zip l2 := by
  induction l1 generalizing n l2 with
  | nil => simp
  | cons a tl ih =>
    cases n with
    | zero =>
      have h2 : l2 = [] := List.eq_nil_of_length_eq_zero (Nat.le_zero.mp h)
      subst h2
      simp
    | succ m =>
      cases l2 with
      | nil => simp
      | cons b tl2 =>
        simp only [List.take, List.zip_cons_cons, List.cons.injEq, true_and]
        exact ih m tl2 (Nat.le_of_succ_le_succ h)

theorem evalElemsWith_length (ev : Node → St → Res Value) (ls : List Node) :
    ∀ st vs st2, evalElemsWith ev ls st = some (.ok vs, st2) → vs.length = ls.length := by
  induction ls with
  | nil =>
    intro st vs st2 h
    simp only [evalElemsWith] at h
    cases h
    rfl
  | cons e rest ih =>
    intro st vs st2 h
    simp only [evalElemsWith] at h
    cases hev : ev e st with
    | none => rw [hev] at h; cases h
    | some p =>
      obtain ⟨r, st1⟩ := p
      rw [hev] at h
      cases r with
      | error er => simp at h
      | ok v =>
        simp only at h
        cases hrest : evalElemsWith ev rest st1 with
        | none => rw [hrest] at h; cases h
        | some q =>
          obtain ⟨r2, st3⟩ := q
          rw [hrest] at h
          cases r2 with
          | error er => simp at h
          | ok vs2 =>
            simp only [Option.some.injEq, Prod.mk.injEq, Except.ok.injEq] at h
            obtain ⟨h1, h2⟩ := h
            subst h1
            simp [ih st1 vs2 st3 (by rw [hrest])]

/-- The interleaved bind-as-you-evaluate loop of `FuncCall.eval` is the same
as first evaluating the zipped arguments in the caller's state and then
declaring all values into the callee frame: the declarations go to a frame
that is not in scope during argument evaluation, so the two orders cannot
observe each other. -/
theorem evalBindsWith_eq (ev : Node → St → Res Value) (pairs : List (Name × Node)) :
    ∀ st fr, evalBindsWith ev pairs st fr =
      match evalElemsWith ev (pairs.map Prod.snd) st with
      | Option.none => Option.none
      | some (.error e, st2) => some (.error e, st2)
      | some (.ok vals, st2) =>
        some (.ok (List.foldl (fun acc p => acc.declareVar p.1 p.2) fr
          ((pairs.map Prod.fst).zip vals)), st2) := by
  induction pairs with
  | nil =>
    intro st fr
    simp [evalBindsWith, evalElemsWith]
  | cons hd rest ih =>
    intro st fr
    obtain ⟨x, a⟩ := hd
    simp only [evalBindsWith, List.map_cons, evalElemsWith]
    cases hev : ev a st with
    | none => rfl
    | some p =>
      obtain ⟨r, st1⟩ := p
      cases r with
      | error e => rfl
      | ok v =>
        simp only
        rw [ih st1 (fr.declareVar x v)]
        cases hrest : evalElemsWith ev (rest.map Prod.snd) st1 with
        | none => rfl
        | some q =>
          obtain ⟨r2, st3⟩ := q
          cases r2 with
          | error e => rfl
          | ok vs => simp [List.zip]

/-! ## Claim C1 — `Env.get` resolves in the nearest scope -/

/-- Spec-side reading of C1: the value bound in the nearest scope that
contains the name, scanning the chain local scope first. -/
def firstBinding (fs : Env) (x : Name) : Option Value :=
  fs.findSome? (fun f => lookupA f.vars x)

/-- **C1.** `Env.get` returns the value bound in the nearest scope containing
the name (local scope first, then each parent in order), and fails with the
`UndefinedVariable` (`not defined`) error exactly when no scope in the chain,
up to and including the root, binds the name. -/
theorem env_get_nearest_scope (fs : Env) (x : Name) :
    (Env.get fs x = match firstBinding fs x with
      | some v => Except.ok v
      | Option.none => Except.error (Err.undefinedVariable x)) ∧
    ((Env.get fs x = Except.error (Err.undefinedVariable x)) ↔
      ∀ f ∈ fs, lookupA f.vars x = Option.none) := by
  induction fs with
  | nil => simp [Env.get, firstBinding]
  | cons f p ih =>
    cases h : lookupA f.vars x with
    | some v => simp [Env.get, firstBinding, h]
    | none =>
      constructor
      · simpa [Env.get, firstBinding, h] using ih.1
      · simpa [Env.get, firstBinding, h] using ih.2

/-- A two-scope chain where `x` is bound in both scopes and `z` only in the
parent. -/
def chainA : Env :=
  [⟨[("x".data, .int 1)], []⟩, ⟨[("x".data, .int 2), ("z".data, .int 9)], []⟩]

/-- Witness for C1 at a concrete chain: the local `x` shadows the parent's,
`z` is found in the parent, and a name bound nowhere raises. -/
theorem env_get_nearest_scope_witness :
    Env.get chainA "x".data = Except.ok (.int 1) ∧
    Env.get chainA "z".data = Except.ok (.int 9) ∧
    Env.get chainA "w".data = Except.error (Err.undefinedVariable "w".data) :=
  ⟨by simpa using (env_get_nearest_scope chainA "x".data).1,
   by simpa using (env_get_nearest_scope chainA "z".data).1,
   by simpa using (env_get_nearest_scope chainA "w".data).1⟩

/-! ## Claim C3 — totality of `parse_line` -/

/-- **C3, counterexample.** `parse_line` is *not* total: a line that starts
with `let ` but contains no `=` raises (the 2-tuple unpacking of
`split('=', 1)` gets a 1-element list and Python raises `ValueError`), so
"never raises an error" fails at the concrete line `let x`. -/
theorem parse_line_raises_counterexample :
    parse_line "let x".data = Except.error Err.letUnpackError := rfl

/-- **C3, amended.** `parse_line` returns at most one node, and raises
exactly on lines whose stripped text starts with `let ` but has no `=` in
the remainder; any line recognized as neither a `let ` statement nor a
`shout ` statement yields no node and is silently ignored. -/
theorem parse_line_amended (line : List Char) :
    ((∃ e, parse_line line = .error e) ↔
      (List.isPrefixOf "let ".data (pyStrip line) = true ∧
       pySplitOnce '=' ((pyStrip line).drop 4) = Option.none)) ∧
    (List.isPrefixOf "let ".data (pyStrip line) = false →
      List.isPrefixOf "shout ".data (pyStrip line) = false →
      parse_line line = .ok Option.none) := by
  constructor
  · cases hl : List.isPrefixOf "let ".data (pyStrip line) with
    | true =>
      cases hs : pySplitOnce '=' ((pyStrip line).drop 4) with
      | none => simp [parse_line, hl, hs]
      | some p => obtain ⟨a, b⟩ := p; simp [parse_line, hl, hs]
    | false =>
      cases hsh : List.isPrefixOf "shout ".data (pyStrip line) with
      | true => simp [parse_line, hl, hsh]
      | false => simp [parse_line, hl, hsh]
  · intro hl hsh
    simp [parse_line, hl, hsh]

/-- Witness for C3 (amended), second part: an unrecognized line yields no
node. -/
theorem parse_line_amended_witness :
    parse_line "reveal_vars".data = .ok Option.none :=
  (parse_line_amended "reveal_vars".data).2 (by decide) (by decide)

/-! ## Claim C5 — the counter `While` loop -/

/-- The loop condition `counter < 3`. -/
def whileCounterCond : Node := .binOp (.var "counter".data) .lt (.number 3)

/-- The loop body `counter = counter + 1` (an `Assign` node). -/
def whileCounterBody : Node := .assign "counter".data (.binOp (.var "counter".data) .add (.number 1))

/-- `While (counter < 3) [counter = counter + 1]`. -/
def whileCounterLoop : Node := .whileN whileCounterCond [whileCounterBody]

/-- The session state with `counter` bound to `n` in a single root scope. -/
def counterSt (n : Int) : St := ⟨[⟨[("counter".data, .int n)], []⟩], []⟩

/-- **C5.** From `counter = 0`, the loop terminates leaving `counter = 3`;
the four condition checks evaluate to true, true, true, false (so the body —
which moves the state from `counter = k` to `counter = k + 1` — runs exactly
3 times, and the loop stops exactly when the re-evaluated condition becomes
falsy); and in general `While` first re-evaluates its condition, runs the
body and loops when it is truthy, and terminates exactly when it is falsy. -/
theorem while_counter_three :
    (evalNode 30 whileCounterLoop (counterSt 0) = some (.ok Value.none, counterSt 3)) ∧
    (Env.get (counterSt 3).frames "counter".data = .ok (.int 3)) ∧
    (∀ k : Int, evalNode 10 whileCounterCond (counterSt k) =
      some (.ok (.bool (decide (k < 3))), counterSt k)) ∧
    (∀ k : Int, evalSeqWith (evalNode 10) [whileCounterBody] (counterSt k) =
      some (.ok Value.none, counterSt (k + 1))) ∧
    (∀ fuel c b st, evalNode (fuel + 1) (.whileN c b) st =
      match evalNode fuel c st with
      | Option.none => Option.none
      | some (.error e, st1) => some (.error e, st1)
      | some (.ok v, st1) =>
        if truthy v then
          match evalSeqWith (evalNode fuel) b st1 with
          | Option.none => Option.none
          | some (.error e, st2) => some (.error e, st2)
          | some (.ok _, st2) => evalNode fuel (.whileN c b) st2
        else some (.ok Value.none, st1)) := by
  refine ⟨rfl, rfl, ?_, ?_, ?_⟩
  · intro k
    simp [whileCounterCond, evalNode, counterSt, Env.get, lookupA, applyOp, intOf]
  · intro k
    simp [whileCounterBody, evalSeqWith, evalNode, counterSt, Env.get, Env.set, Frame.declareVar,
      insertA, lookupA, applyOp, intOf]
  · intro fuel c b st
    rfl

/-! ## Claim C6 — `declare` writes only the local scope -/

/-- **C6.** With a parent chain binding `x` and any child frame, `declare`
on the child writes only the child's local variable dict: `get` on the child
then returns the child's value, while the whole parent chain — in particular
its binding for `x` — is unchanged. -/
theorem declare_local_shadowing (cf : Frame) (parent : Env) (x : Name) (v w : Value)
    (h : Env.get parent x = .ok w) :
    Env.get (Env.declare (cf :: parent) x v) x = .ok v ∧
    (Env.declare (cf :: parent) x v) = cf.declareVar x v :: parent ∧
    Env.get ((Env.declare (cf :: parent) x v).tail) x = .ok w := by
  refine ⟨?_, rfl, h⟩
  simp [Env.declare, Frame.declareVar, Env.get, lookupA_insertA_self]

/-- Witness for C6: parent binds `x := 2`; declaring `x := 7` in a child
leaves the parent chain intact. -/
theorem declare_local_shadowing_witness :
    Env.get (Env.declare (Frame.empty :: [⟨[("x".data, .int 2)], []⟩]) "x".data (.int 7)) "x".data
        = .ok (.int 7) ∧
    Env.get ((Env.declare (Frame.empty :: [⟨[("x".data, .int 2)], []⟩]) "x".data (.int 7)).tail)
        "x".data = .ok (.int 2) :=
  ⟨(declare_local_shadowing Frame.empty [⟨[("x".data, .int 2)], []⟩] "x".data (.int 7) (.int 2)
      rfl).1,
   (declare_local_shadowing Frame.empty [⟨[("x".data, .int 2)], []⟩] "x".data (.int 7) (.int 2)
      rfl).2.2⟩

/-! ## Claim C4 — `&&` / `||` evaluate both operands, no short-circuit -/

/-- Environment for the side-effect demonstration: `y = 0` and a function
`g()` whose body is `[y = 1, true]`. -/
def andDemoEnv : Env :=
  [⟨[("y".data, .int 0)],
    [("g".data, (([] : List Name), [Node.assign "y".data (.number 1), Node.boolean true]))]⟩]

/-- `andDemoEnv` after `g()` has run: `y = 1`. -/
def andDemoEnvAfter : Env :=
  [⟨[("y".data, .int 1)],
    [("g".data, (([] : List Name), [Node.assign "y".data (.number 1), Node.boolean true]))]⟩]

/-- **C4.** For `&&` and `||` both operands are always evaluated, left then
right, including their effects on the environment, before the operator is
applied; the result is whichever operand value the truth-test selects (for
`&&`: the left operand when falsy, else the right; for `||`: the left when
truthy, else the right), which need not be a boolean. Demonstrations: with a
falsy left operand, `false && g()` still runs `g` (mutating `y` from 0 to 1)
and returns the left operand `False`; `0 || 5` returns the non-boolean `5`;
`2 && 7` returns the non-boolean `7`. -/
theorem binop_logical_no_short_circuit :
    (∀ fuel (l r : Node) (st : St),
      evalNode (fuel + 1) (.binOp l .and r) st =
        match evalNode fuel l st with
        | Option.none => Option.none
        | some (.error e, st1) => some (.error e, st1)
        | some (.ok lv, st1) =>
          match evalNode fuel r st1 with
          | Option.none => Option.none
          | some (.error e, st2) => some (.error e, st2)
          | some (.ok rv, st2) => some (.ok (if truthy lv then rv else lv), st2)) ∧
    (∀ fuel (l r : Node) (st : St),
      evalNode (fuel + 1) (.binOp l .or r) st =
        match evalNode fuel l st with
        | Option.none => Option.none
        | some (.error e, st1) => some (.error e, st1)
        | some (.ok lv, st1) =>
          match evalNode fuel r st1 with
          | Option.none => Option.none
          | some (.error e, st2) => some (.error e, st2)
          | some (.ok rv, st2) => some (.ok (if truthy lv then lv else rv), st2)) ∧
    (evalNode 10 (.binOp (.boolean false) .and (.funcCall "g".data [])) ⟨andDemoEnv, []⟩ =
      some (.ok (.bool false), ⟨andDemoEnvAfter, []⟩)) ∧
    (evalNode 10 (.binOp (.number 0) .or (.number 5)) ⟨[], []⟩ =
      some (.ok (.int 5), ⟨[], []⟩)) ∧
    (evalNode 10 (.binOp (.number 2) .and (.number 7)) ⟨[], []⟩ =
      some (.ok (.int 7), ⟨[], []⟩)) := by
  refine ⟨?_, ?_, rfl, rfl, rfl⟩ <;>
  · intro fuel l r st
    simp only [evalNode]
    cases evalNode fuel l st with
    | none => rfl
    | some p =>
      obtain ⟨res, st1⟩ := p
      cases res with
      | error e => rfl
      | ok lv =>
        simp only
        cases evalNode fuel r st1 with
        | none => rfl
        | some q =>
          obtain ⟨res2, st2⟩ := q
          cases res2 with
          | error e => rfl
          | ok rv => simp [applyOp]

/-! ## Claim C2 — function call semantics -/

/-- Spec-side reading of C2 (`specCall`), written from the claim's words:
on a resolved call, evaluate the arguments that correspond positionally to a
parameter (zip-to-shortest: extra arguments or extra parameters are silently
dropped) left to right *in the caller's scope*; create exactly one new child
environment whose parent is the calling scope, binding each parameter to its
argument's value; evaluate the body statements in order in that child scope;
return the value of the last statement evaluated (`Value.none` for an empty
body); the caller keeps its own (possibly mutated) chain afterwards. -/
def specCall (fuel : Nat) (params : List Name) (body : List Node) (args : List Node)
    (st : St) : Res Value :=
  match evalElemsWith (evalNode fuel) (args.take params.length) st with
  | Option.none => Option.none
  | some (.error e, st1) => some (.error e, st1)
  | some (.ok vals, st1) =>
    let callee : Frame :=
      List.foldl (fun acc p => acc.declareVar p.1 p.2) Frame.empty (params.zip vals)
    match evalSeqWith (evalNode fuel) body { st1 with frames := callee :: st1.frames } with
    | Option.none => Option.none
    | some (res, st2) => some (res, { st2 with frames := st2.frames.tail })

/-- **C2.** Whenever the call's name resolves to a defined function,
`FuncCall.eval` behaves exactly as `specCall`: one new child environment
whose parent is the calling scope, positional zip-to-shortest binding of
parameters to argument values evaluated in the caller's scope, body
statements evaluated in order in the child scope, and the last statement's
value (or no value for an empty body) returned. -/
theorem funcCall_semantics (fuel : Nat) (f : Name) (params : List Name) (body : List Node)
    (args : List Node) (st : St)
    (h : Env.getFunc st.frames f = .ok (params, body)) :
    evalNode (fuel + 1) (.funcCall f args) st = specCall fuel params body args st := by
  simp only [evalNode, h]
  rw [evalBindsWith_eq]
  simp only [zip_map_snd, specCall]
  cases hel : evalElemsWith (evalNode fuel) (args.take params.length) st with
  | none => rfl
  | some p =>
    obtain ⟨res, st1⟩ := p
    cases res with
    | error e => rfl
    | ok vals =>
      have hlen : vals.length = (args.take params.length).length :=
        evalElemsWith_length (evalNode fuel) (args.take params.length) st vals st1 hel
      have hle : vals.length ≤ args.length := by
        rw [hlen]
        simp
      have hzip : ((params.zip args).map Prod.fst).zip vals = params.zip vals := by
        rw [zip_map_fst, take_zip_of_le params args.length vals hle]
      simp [hzip]

/-- Witness for C2: `f(a)` with body `[shout a, a + 1]` called as `f(10)`
(plus one extra, dropped, argument) — prints `10`, returns `11`, pops the
child scope. -/
def funcDemoEnv : Env :=
  [⟨[], [("f".data, (["a".data],
    [Node.print (.var "a".data), Node.binOp (.var "a".data) .add (.number 1)]))]⟩]

/-- Witness for C2 at a concrete resolved call (the resolution hypothesis is
discharged by `rfl`, and both sides of the proven equation evaluate to the
printed-and-returned result shown). -/
theorem funcCall_semantics_witness :
    evalNode 10 (.funcCall "f".data [.number 10, .number 99]) ⟨funcDemoEnv, []⟩ =
        specCall 9 ["a".data]
          [Node.print (.var "a".data), Node.binOp (.var "a".data) .add (.number 1)]
          [.number 10, .number 99] ⟨funcDemoEnv, []⟩ ∧
    evalNode 10 (.funcCall "f".data [.number 10, .number 99]) ⟨funcDemoEnv, []⟩ =
        some (.ok (.int 11), ⟨funcDemoEnv, [.print (.int 10)]⟩) :=
  ⟨funcCall_semantics 9 "f".data ["a".data]
    [Node.print (.var "a".data), Node.binOp (.var "a".data) .add (.number 1)]
    [.number 10, .number 99] ⟨funcDemoEnv, []⟩ rfl, rfl⟩

/-! ## Runner lemmas -/

/-- Helper: `stepLine` never clears an already-set superuser flag (the only
write to the flag in the source is `env.superuser = True`). -/
theorem stepLine_superuser_mono (fuel : Nat) (line : List Char) (rs : RState)
    (h : rs.superuser = true) :
    ∀ oe rs2, stepLine fuel line rs = some (oe, rs2) → rs2.superuser = true := by
  intro oe rs2 hstep
  by_cases hm : pyUpper (pyStrip line) = magicToken
  · simp only [stepLine] at hstep
    rw [if_pos hm] at hstep
    cases hstep
    rfl
  · simp only [stepLine] at hstep
    rw [if_neg hm] at hstep
    repeat' split at hstep
    all_goals cases hstep
    all_goals first | rfl | exact h

/-- Helper: a line that is not the magic token leaves the superuser flag as
it was (set or unset). -/
theorem stepLine_superuser_eq (fuel : Nat) (line : List Char) (rs : RState)
    (h : pyUpper (pyStrip line) ≠ magicToken) :
    ∀ oe rs2, stepLine fuel line rs = some (oe, rs2) → rs2.superuser = rs.superuser := by
  intro oe rs2 hstep
  simp only [stepLine] at hstep
  rw [if_neg h] at hstep
  repeat' split at hstep
  all_goals cases hstep
  all_goals rfl

/-- Helper: `run` never clears an already-set superuser flag. -/
theorem run_superuser_mono (fuel : Nat) (lines : List (List Char)) :
    ∀ rs oe rs2, rs.superuser = true → run fuel lines rs = some (oe, rs2) →
      rs2.superuser = true := by
  induction lines with
  | nil =>
    intro rs oe rs2 h hr
    unfold run at hr
    cases hr
    exact h
  | cons l rest ih =>
    intro rs oe rs2 h hr
    unfold run at hr
    cases hstep : stepLine fuel l rs with
    | none => rw [hstep] at hr; cases hr
    | some p =>
      obtain ⟨oe1, rs1⟩ := p
      have h1 : rs1.superuser = true := stepLine_superuser_mono fuel l rs h oe1 rs1 hstep
      rw [hstep] at hr
      cases oe1 with
      | none => exact ih rs1 oe rs2 h1 hr
      | some e =>
        simp only [Option.some.injEq, Prod.mk.injEq] at hr
        rw [← hr.2]
        exact h1

/-- Helper: over token-free lines, `run` leaves an unset superuser flag
unset. -/
theorem run_superuser_stays_false (fuel : Nat) (lines : List (List Char)) :
    ∀ rs oe rs2, rs.superuser = false →
      (∀ l ∈ lines, pyUpper (pyStrip l) ≠ magicToken) →
      run fuel lines rs = some (oe, rs2) → rs2.superuser = false := by
  induction lines with
  | nil =>
    intro rs oe rs2 h _ hr
    unfold run at hr
    cases hr
    exact h
  | cons l rest ih =>
    intro rs oe rs2 h hnm hr
    unfold run at hr
    cases hstep : stepLine fuel l rs with
    | none => rw [hstep] at hr; cases hr
    | some p =>
      obtain ⟨oe1, rs1⟩ := p
      have h1 : rs1.superuser = false := by
        rw [stepLine_superuser_eq fuel l rs (hnm l (by simp)) oe1 rs1 hstep]
        exact h
      rw [hstep] at hr
      cases oe1 with
      | none => exact ih rs1 oe rs2 h1 (fun l2 hl2 => hnm l2 (by simp [hl2])) hr
      | some e =>
        simp only [Option.some.injEq, Prod.mk.injEq] at hr
        rw [← hr.2]
        exact h1

/-! ## Claim C7 — superuser mode, once entered, persists -/

/-- **C7.** Processing a line that strips and uppercases to the magic token
sets the session's superuser flag (and emits the activation banner), and the
flag, once set, survives every line `stepLine` processes and every further
`run` invocation on that session state: no operation of the core ever
resets it. -/
theorem superuser_persists :
    (∀ fuel line (rs : RState), pyUpper (pyStrip line) = magicToken →
      stepLine fuel line rs =
        some (Option.none, ⟨rs.frames, true, rs.out ++ [.superuserActivated]⟩)) ∧
    (∀ fuel line rs oe rs2, rs.superuser = true →
      stepLine fuel line rs = some (oe, rs2) → rs2.superuser = true) ∧
    (∀ fuel lines rs oe rs2, rs.superuser = true →
      run fuel lines rs = some (oe, rs2) → rs2.superuser = true) := by
  refine ⟨?_, ?_, ?_⟩
  · intro fuel line rs hm
    simp [stepLine, hm]
  · intro fuel line rs oe rs2 h hs
    exact stepLine_superuser_mono fuel line rs h oe rs2 hs
  · intro fuel lines rs oe rs2 h hr
    exact run_superuser_mono fuel lines rs oe rs2 h hr

/-- A session state before superuser activation, with `x = 0`. -/
def rsW : RState := ⟨[⟨[("x".data, .int 0)], []⟩], false, []⟩

/-- The same session with the flag already set. -/
def rsWsu : RState := ⟨[⟨[("x".data, .int 0)], []⟩], true, []⟩

/-- Witness for C7: the magic token line (odd case and padding) activates the
flag, and a later invocation over an ordinary line keeps it set. -/
theorem superuser_persists_witness :
    stepLine 1 " sudo%20init%20superusermode ".data rsW =
      some (Option.none, ⟨rsW.frames, true, rsW.out ++ [.superuserActivated]⟩) ∧
    run 3 ["let x = 9".data] rsWsu =
      some (Option.none, ⟨[⟨[("x".data, .int 9)], []⟩], true, []⟩) ∧
    (⟨[⟨[("x".data, .int 9)], []⟩], true, []⟩ : RState).superuser = true :=
  ⟨superuser_persists.1 1 " sudo%20init%20superusermode ".data rsW (by decide),
   rfl,
   superuser_persists.2.2 3 ["let x = 9".data] rsWsu Option.none
     ⟨[⟨[("x".data, .int 9)], []⟩], true, []⟩ rfl rfl⟩

/-! ## Claim C8 — superuser commands without the magic token -/

/-- A session whose superuser flag is already set (as C7 shows, reachable
from an earlier `run` invocation that processed the magic token), with
`x = 0`. -/
def c8st : RState := ⟨[⟨[("x".data, .int 0)], []⟩], true, []⟩

/-- **C8, counterexample.** As stated the claim quantifies over every run
whose *source* lacks the magic token — but the superuser flag lives on the
session state, which earlier invocations may have set. Concretely: the
single-line source `set_var x 5` contains no magic token, yet run on a
session whose flag is already set it *does* take effect — `x` changes from 0
to 5 and a `[SUPERUSER]` line is printed. -/
theorem superuser_commands_counterexample :
    pyUpper (pyStrip "set_var x 5".data) ≠ magicToken ∧
    run 3 ["set_var x 5".data] c8st =
      some (Option.none, ⟨[⟨[("x".data, .int 5)], []⟩], true, [.setVar "x".data 5]⟩) :=
  ⟨by decide, rfl⟩

/-- **C8, amended.** In every run starting from a session state whose
superuser flag is unset, over source whose lines never strip-and-uppercase
to the magic token, `reveal_vars` / `set_var` lines never take effect: such
a line is processed exactly like an unrecognized line — no error, no output,
no state change — and the flag stays unset for the whole run (so this holds
line after line). -/
theorem superuser_commands_inert_amended :
    (∀ fuel line (rs : RState), rs.superuser = false →
      (List.isPrefixOf "reveal_vars".data (pyStrip line) = true ∨
       List.isPrefixOf "set_var".data (pyStrip line) = true) →
      stepLine fuel line rs = some (Option.none, rs)) ∧
    (∀ fuel lines rs oe rs2, rs.superuser = false →
      (∀ l ∈ lines, pyUpper (pyStrip l) ≠ magicToken) →
      run fuel lines rs = some (oe, rs2) → rs2.superuser = false) := by
  constructor
  · intro fuel line rs hsu hpre
    obtain ⟨fr, su, o⟩ := rs
    simp only at hsu
    subst hsu
    cases hpre with
    | inl hr =>
      obtain ⟨t, ht⟩ := List.isPrefixOf_iff_prefix.mp hr
      have hls : pyStrip line =
          'r':: 'e':: 'v':: 'e':: 'a':: 'l':: '_':: 'v':: 'a':: 'r':: 's'::t := ht.symm
      simp [stepLine, parse_line, hls, pyUpper, magicToken, List.isPrefixOf]
    | inr hr =>
      obtain ⟨t, ht⟩ := List.isPrefixOf_iff_prefix.mp hr
      have hls : pyStrip line = 's':: 'e':: 't':: '_':: 'v':: 'a':: 'r'::t := ht.symm
      simp [stepLine, parse_line, hls, pyUpper, magicToken, List.isPrefixOf]
  · intro fuel lines rs oe rs2 hsu hnm hr
    exact run_superuser_stays_false fuel lines rs oe rs2 hsu hnm hr

/-- Witness for C8 (amended): with the flag unset, a `set_var x 5` line is a
no-op, and a `reveal_vars` line likewise; a token-free run keeps the flag
unset. -/
theorem superuser_commands_inert_witness :
    stepLine 3 "set_var x 5".data rsW = some (Option.none, rsW) ∧
    stepLine 3 "reveal_vars".data rsW = some (Option.none, rsW) ∧
    (⟨[⟨[("x".data, .int 0)], []⟩], false, []⟩ : RState).superuser = false :=
  ⟨superuser_commands_inert_amended.1 3 "set_var x 5".data rsW rfl (Or.inr (by decide)),
   superuser_commands_inert_amended.1 3 "reveal_vars".data rsW rfl (Or.inl (by decide)),
   superuser_commands_inert_amended.2 3 ["set_var x 5".data] rsW Option.none
     ⟨[⟨[("x".data, .int 0)], []⟩], false, []⟩ rfl (by decide) rfl⟩

/-! ## Claim C9 — malformed `set_var` raises -/

/-- The well-formedness the `set_var` handler requires: stripping and
whitespace-splitting the line yields exactly the command word, one variable
name and one integer-parsable value token. -/
def wellFormedSetVar (ls : List Char) : Bool :=
  match pySplitWs ls with
  | [_, _, v] => (pyParseInt v).isSome
  | _ => false

/-- **C9.** With superuser mode active, a `set_var` line whose stripped text
does not consist of exactly the command word, one variable name and one
integer value fails with the `MalformedSuperuserCommand` error (the host
`ValueError` from tuple unpacking or `int()`), raised synchronously from the
runner's handling of that line, with the session state untouched by the
failing statement. -/
theorem setvar_malformed_raises (fuel : Nat) (line : List Char) (rs : RState)
    (hsu : rs.superuser = true)
    (hpre : List.isPrefixOf "set_var".data (pyStrip line) = true)
    (hbad : wellFormedSetVar (pyStrip line) = false) :
    stepLine fuel line rs = some (some Err.malformedSuperuserCommand, rs) := by
  obtain ⟨fr, su, o⟩ := rs
  simp only at hsu
  subst hsu
  obtain ⟨t, ht⟩ := List.isPrefixOf_iff_prefix.mp hpre
  have hls : pyStrip line = 's':: 'e':: 't':: '_':: 'v':: 'a':: 'r'::t := ht.symm
  rw [hls] at hbad
  simp only [stepLine, parse_line, hls, pyUpper, magicToken, List.isPrefixOf]
  simp only [wellFormedSetVar] at hbad
  cases hsplit : pySplitWs ('s':: 'e':: 't':: '_':: 'v':: 'a':: 'r'::t) with
  | nil => simp [hsplit]
  | cons a l1 =>
    cases l1 with
    | nil => simp [hsplit]
    | cons b l2 =>
      cases l2 with
      | nil => simp [hsplit]
      | cons c l3 =>
        cases l3 with
        | nil =>
          rw [hsplit] at hbad
          simp only [Option.isSome] at hbad
          cases hint : pyParseInt c with
          | none => simp [hsplit, hint]
          | some n => rw [hint] at hbad; cases hbad
        | cons d l4 => simp [hsplit]

/-- Witness for C9: with the flag set, `set_var x` (missing the value) and
`set_var x yes` (non-integer value) both raise `MalformedSuperuserCommand`
and leave the session state unchanged. -/
theorem setvar_malformed_raises_witness :
    stepLine 3 "set_var x".data rsWsu = some (some Err.malformedSuperuserCommand, rsWsu) ∧
    stepLine 3 "set_var x yes".data rsWsu = some (some Err.malformedSuperuserCommand, rsWsu) :=
  ⟨setvar_malformed_raises 3 "set_var x".data rsWsu rfl (by decide) (by decide),
   setvar_malformed_raises 3 "set_var x yes".data rsWsu rfl (by decide) (by decide)⟩

/-! ## Claim C10 — errors in `Let` / `Assign` right-hand sides -/

/-- Environment for the C10 counterexample: `y = 0` and a function `f()`
whose body first assigns `y = 1` (mutating the caller's scope through the
chain) and then reads the unbound name `nope` (raising). -/
def c10Env : Env :=
  [⟨[("y".data, .int 0)],
    [("f".data, (([] : List Name), [Node.assign "y".data (.number 1), Node.var "nope".data]))]⟩]

/-- `c10Env` as the failing call leaves it: `y` was overwritten to 1. -/
def c10EnvAfter : Env :=
  [⟨[("y".data, .int 1)],
    [("f".data, (([] : List Name), [Node.assign "y".data (.number 1), Node.var "nope".data]))]⟩]

/-- **C10, counterexample.** `Let("x", f())` over `c10Env`: evaluating the
right-hand side raises `UndefinedVariable`, and indeed no binding for `x` is
created — but the environment is *not* left completely unchanged: the RHS
evaluation itself overwrote `y` (0 → 1) in the caller's scope before
raising, so "no binding is created, overwritten, or removed in any scope"
fails. The same `Assign` node fails identically. -/
theorem let_error_mutation_counterexample :
    evalNode 10 (.letN "x".data (.funcCall "f".data [])) ⟨c10Env, []⟩ =
      some (.error (.undefinedVariable "nope".data), ⟨c10EnvAfter, []⟩) ∧
    Env.get c10Env "y".data = .ok (.int 0) ∧
    Env.get c10EnvAfter "y".data = .ok (.int 1) ∧
    c10Env ≠ c10EnvAfter := by
  refine ⟨rfl, rfl, rfl, ?_⟩
  intro h
  have h2 := congrArg (fun e => Env.get e "y".data) h
  simp only [c10Env, c10EnvAfter, Env.get, lookupA, if_pos rfl] at h2
  cases h2

/-- **C10, amended.** The right-hand expression is fully evaluated before
the environment is mutated, and the failing `Let` / `Assign` performs no
mutation *of its own*: when the RHS evaluation raises, the statement's
result state is exactly the state the RHS evaluation produced at the error —
no binding for the target name is created or overwritten; in particular,
when the RHS evaluation itself performs no mutation (e.g. a bare variable
read), the environment is completely unchanged. -/
theorem let_assign_error_no_own_mutation (fuel : Nat) (x : Name) (expr : Node) (st : St)
    (e : Err) (st2 : St) (h : evalNode fuel expr st = some (.error e, st2)) :
    evalNode (fuel + 1) (.letN x expr) st = some (.error e, st2) ∧
    evalNode (fuel + 1) (.assign x expr) st = some (.error e, st2) := by
  constructor <;> simp [evalNode, h]

/-- Witness for C10 (amended): a side-effect-free failing RHS (a bare unbound
variable read) leaves the environment exactly unchanged under both `Let` and
`Assign`. -/
theorem let_assign_error_no_own_mutation_witness :
    evalNode 1 (.var "nope".data) ⟨[Frame.empty], []⟩ =
      some (.error (.undefinedVariable "nope".data), ⟨[Frame.empty], []⟩) ∧
    evalNode 2 (.letN "x".data (.var "nope".data)) ⟨[Frame.empty], []⟩ =
      some (.error (.undefinedVariable "nope".data), ⟨[Frame.empty], []⟩) ∧
    evalNode 2 (.assign "x".data (.var "nope".data)) ⟨[Frame.empty], []⟩ =
      some (.error (.undefinedVariable "nope".data), ⟨[Frame.empty], []⟩) :=
  ⟨rfl,
   (let_assign_error_no_own_mutation 1 "x".data (.var "nope".data) ⟨[Frame.empty], []⟩
     (.undefinedVariable "nope".data) ⟨[Frame.empty], []⟩ rfl).1,
   (let_assign_error_no_own_mutation 1 "x".data (.var "nope".data) ⟨[Frame.empty], []⟩
     (.undefinedVariable "nope".data) ⟨[Frame.empty], []⟩ rfl).2⟩

end Aerith
